import Mathlib

/-!
# Nvfc assembly printer: operand rendering

A shallow embedding of `NvfcAsmPrinter.cpp` (`printOperand`,
`printSrcMemOperand`, `PrintAsmOperand`, `PrintAsmMemoryOperand`) and the
properties of the text these functions write, followed by the target node
codes of `NvfcISelLowering.h` and the lowering of comparisons and calls that
this header declares.

Conventions of the embedding:
* the stream `raw_ostream &O` is the text written so far, passed in and out;
* `assert` is modelled as in a build with assertions enabled: a failed
  assertion stops the call, and the outcome records the stream at that point;
* a `const char *` is `Option String` (`none` is the null pointer); C string
  functions stop at the first NUL character;
* `int64_t` values are integers in `[-2^63, 2^63)`; the conversion to
  `uint64_t` is taken modulo `2^64`.
-/

namespace Nvfc

/-! ## Machine integers -/

/-- Range of `int64_t`. -/
def isInt64 (v : Int) : Prop := -(2 : Int) ^ 63 ≤ v ∧ v < (2 : Int) ^ 63

instance (v : Int) : Decidable (isInt64 v) :=
  inferInstanceAs (Decidable (-(2 : Int) ^ 63 ≤ v ∧ v < (2 : Int) ^ 63))

/-- Conversion `int64_t → uint64_t` (the initialisation `uint64_t Offset = MO.getOffset()`). -/
def toUInt64 (v : Int) : Nat := (v % (2 : Int) ^ 64).toNat

/-! ## The output stream -/

/-- The stream `raw_ostream &O`, as the text written to it so far. -/
abbrev raw_ostream := String

/-- Modelled from the spec: `raw_ostream::operator<<(uint64_t)` is not among the
sources; it writes the decimal value of the number. -/
def decimal (n : Nat) : String := Nat.repr n

/-- Modelled from the spec: `raw_ostream::operator<<(int64_t)` is not among the
sources; it writes the decimal value of the number, with a leading `-` when it is
negative. -/
def signedDecimal (v : Int) : String :=
  if v < 0 then "-" ++ decimal v.natAbs else decimal v.toNat

/-- Outcome of a call on a stream: the call returns `a` and leaves the stream `O`, or an
assertion fails when the stream holds `O`. -/
inductive Outcome (α : Type) where
  | ret (a : α) (O : raw_ostream)
  | assertFailed (O : raw_ostream)
  deriving DecidableEq, Repr

/-! ## C strings -/

/-- Comparison of two C strings given as character lists (a list ends where a NUL would
be, and a NUL character inside ends the string too): the difference of the first pair of
characters that differ, `0` when there is none. -/
def strcmpChars : List Char → List Char → Int
  | [], [] => 0
  | [], b :: _ => 0 - (b.toNat : Int)
  | a :: _, [] => (a.toNat : Int)
  | a :: as, b :: bs =>
    if a ≠ b then (a.toNat : Int) - (b.toNat : Int)
    else if a = '\x00' then 0
    else strcmpChars as bs

/-- The C library `strcmp`. -/
def strcmp (a b : String) : Int := strcmpChars a.data b.data

/-- The character `s[0]` of a C string: the terminating NUL when the string is empty. -/
def firstChar (s : String) : Char := s.data.headD '\x00'

/-! ## Operands and instructions -/

/-- A global value (`const GlobalValue *`), identified by its name. -/
structure GlobalValue where
  Name : String
  deriving DecidableEq, Repr

/-- A machine basic block (`MachineBasicBlock *`), identified by its number. -/
structure MachineBasicBlock where
  Number : Nat
  deriving DecidableEq, Repr

/-- Modelled from the spec: the declaration of `MachineOperand` is not among the sources.
An operand is a tagged union; the five kinds `printOperand` has a case for carry the
fields it reads, and `MO_Other` stands for every other `MachineOperandType`. -/
inductive MachineOperand where
  | MO_Register (Reg : Nat)
  | MO_Immediate (Imm : Int)
  | MO_MachineBasicBlock (MBB : MachineBasicBlock)
  | MO_GlobalAddress (GV : GlobalValue) (Offset : Int)
  | MO_ExternalSymbol (SymbolName : String)
  | MO_Other (Kind : Nat)
  deriving DecidableEq, Repr

namespace MachineOperand

/-- The query `MO.isReg()`. -/
def isReg : MachineOperand → Bool
  | MO_Register _ => true
  | _ => false

/-- The query `MO.isImm()`. -/
def isImm : MachineOperand → Bool
  | MO_Immediate _ => true
  | _ => false

/-- The accessor `MO.getReg()`; it asserts `isReg()`, so `none` is the failed assertion. -/
def getReg : MachineOperand → Option Nat
  | MO_Register r => some r
  | _ => none

/-- The operand is of one of the five kinds `printOperand` has a case for. -/
def supported : MachineOperand → Bool
  | MO_Other _ => false
  | _ => true

end MachineOperand

/-- A finalized machine instruction: opcode and ordered operand list. -/
structure MachineInstr where
  Opcode : Nat
  Operands : List MachineOperand
  deriving DecidableEq, Repr

/-- The accessor `MI->getOperand(i)`; it asserts `i < getNumOperands()`, so `none` is the failed
assertion. -/
def MachineInstr.getOperand (MI : MachineInstr) (i : Nat) : Option MachineOperand :=
  MI.Operands[i]?

/-- The tables the printer reads and that are not among the sources: the register names
(`NvfcInstPrinter::getRegisterName`), the text of the symbol of a global
(`*Mang->getSymbol(GV)`), the text of the symbol of a block (`*MBB->getSymbol()`), and
the global name prefix (`MAI->getGlobalPrefix()`). -/
structure Tables where
  getRegisterName : Nat → String
  getSymbol : GlobalValue → String
  getMBBSymbol : MachineBasicBlock → String
  getGlobalPrefix : String

/-! ## The printer -/

open MachineOperand in
/-- The function `NvfcAsmPrinter::printOperand`. -/
def printOperand (T : Tables) (MI : MachineInstr) (OpNum : Nat) (O : raw_ostream)
    (Modifier : Option String) : Outcome Unit :=
  match MI.getOperand OpNum with
  | none => .assertFailed O
  | some MO =>
    match MO with
    | MO_Other _ => .assertFailed O
    | MO_Register Reg => .ret () (O ++ T.getRegisterName Reg)
    | MO_Immediate Imm =>
      let O1 :=
        match Modifier with
        | none => O.push '#'
        | some m => if strcmp m "nohash" ≠ 0 then O.push '#' else O
      .ret () (O1 ++ signedDecimal Imm)
    | MO_MachineBasicBlock MBB => .ret () (O ++ T.getMBBSymbol MBB)
    | MO_GlobalAddress GV Off =>
      let isMemOp : Bool :=
        match Modifier with
        | none => false
        | some m => strcmp m "mem" == 0
      let Offset : Nat := toUInt64 Off
      let O1 :=
        match Modifier with
        | none => O.push (if isMemOp then '&' else '#')
        | some m =>
          if strcmp m "nohash" ≠ 0 then O.push (if isMemOp then '&' else '#') else O
      let O2 := if Offset ≠ 0 then ((O1.push '(') ++ decimal Offset).push '+' else O1
      let O3 := O2 ++ T.getSymbol GV
      let O4 := if Offset ≠ 0 then O3.push ')' else O3
      .ret () O4
    | MO_ExternalSymbol SymbolName =>
      let isMemOp : Bool :=
        match Modifier with
        | none => false
        | some m => strcmp m "mem" == 0
      let O1 := O.push (if isMemOp then '&' else '#')
      .ret () ((O1 ++ T.getGlobalPrefix) ++ SymbolName)

/-- The function `NvfcAsmPrinter::printSrcMemOperand`. -/
def printSrcMemOperand (T : Tables) (MI : MachineInstr) (OpNum : Nat) (O : raw_ostream) :
    Outcome Unit :=
  match MI.getOperand OpNum, MI.getOperand (OpNum + 1) with
  | none, _ => .assertFailed O
  | _, none => .assertFailed O
  | some Base, some Disp =>
    -- `Disp.isImm() && !Base.getReg()`: `getReg` is reached only when `isImm` holds
    let amp : Option Bool :=
      if Disp.isImm then
        match Base.getReg with
        | none => none
        | some r => some (r == 0)
      else some false
    match amp with
    | none => .assertFailed O
    | some b =>
      let O1 := if b then O.push '&' else O
      match printOperand T MI (OpNum + 1) O1 (some "nohash") with
      | .assertFailed O2 => .assertFailed O2
      | .ret _ O2 =>
        match Base.getReg with
        | none => .assertFailed O2
        | some r =>
          if r ≠ 0 then
            match printOperand T MI OpNum (O2.push '(') none with
            | .assertFailed O3 => .assertFailed O3
            | .ret _ O3 => .ret () (O3.push ')')
          else .ret () O2

/-- The function `NvfcAsmPrinter::PrintAsmOperand`; the result `true` is the failure signal. -/
def PrintAsmOperand (T : Tables) (MI : MachineInstr) (OpNo : Nat) (AsmVariant : Nat)
    (ExtraCode : Option String) (O : raw_ostream) : Outcome Bool :=
  let _ := AsmVariant
  let unknown : Bool :=
    match ExtraCode with
    | none => false
    | some s => firstChar s != '\x00'
  if unknown then .ret true O
  else
    match printOperand T MI OpNo O none with
    | .assertFailed O1 => .assertFailed O1
    | .ret _ O1 => .ret false O1

/-- The function `NvfcAsmPrinter::PrintAsmMemoryOperand`; the result `true` is the failure signal. -/
def PrintAsmMemoryOperand (T : Tables) (MI : MachineInstr) (OpNo : Nat) (AsmVariant : Nat)
    (ExtraCode : Option String) (O : raw_ostream) : Outcome Bool :=
  let _ := AsmVariant
  let unknown : Bool :=
    match ExtraCode with
    | none => false
    | some s => firstChar s != '\x00'
  if unknown then .ret true O
  else
    match printSrcMemOperand T MI OpNo O with
    | .assertFailed O1 => .assertFailed O1
    | .ret _ O1 => .ret false O1

/-! ## Sample tables and instructions -/

/-- Register names `r0`, `r1`, ...; symbols printed under their own name; blocks as
`.LBB<n>`; empty global prefix. -/
def sampleTables : Tables where
  getRegisterName := fun r => "r" ++ Nat.repr r
  getSymbol := fun GV => GV.Name
  getMBBSymbol := fun MBB => ".LBB" ++ Nat.repr MBB.Number
  getGlobalPrefix := ""

/-- An instruction with the given operands. -/
def mkInstr (ops : List MachineOperand) : MachineInstr := ⟨0, ops⟩

/-! ## The target node codes of `NvfcISelLowering.h` -/

namespace NvfcISD

/-- The enumerators of the anonymous `enum` of `namespace NvfcISD`. -/
inductive NodeType where
  | FIRST_NUMBER
  | RET_FLAG
  | RETI_FLAG
  | RRA
  | RLA
  | RRC
  | CALL
  | Wrapper
  | CMP
  | SETCC
  | BR_CC
  | SELECT_CC
  | XBIT_FLAG
  | XBIT
  deriving DecidableEq, Repr

open NodeType in
/-- The enumerators in the order the `enum` declares them. -/
def enumerators : List NodeType :=
  [FIRST_NUMBER, RET_FLAG, RETI_FLAG, RRA, RLA, RRC, CALL, Wrapper, CMP, SETCC, BR_CC,
   SELECT_CC, XBIT_FLAG, XBIT]

open NodeType in
/-- The value of an enumerator: `FIRST_NUMBER` is given the value `ISD::BUILTIN_OP_END` (a
constant that is not among the sources, taken as the parameter `BUILTIN_OP_END`), and every
later enumerator is one more than the one before it. -/
def value (BUILTIN_OP_END : Nat) : NodeType → Nat
  | FIRST_NUMBER => BUILTIN_OP_END
  | RET_FLAG => BUILTIN_OP_END + 1
  | RETI_FLAG => BUILTIN_OP_END + 1 + 1
  | RRA => BUILTIN_OP_END + 1 + 1 + 1
  | RLA => BUILTIN_OP_END + 1 + 1 + 1 + 1
  | RRC => BUILTIN_OP_END + 1 + 1 + 1 + 1 + 1
  | CALL => BUILTIN_OP_END + 1 + 1 + 1 + 1 + 1 + 1
  | Wrapper => BUILTIN_OP_END + 1 + 1 + 1 + 1 + 1 + 1 + 1
  | CMP => BUILTIN_OP_END + 1 + 1 + 1 + 1 + 1 + 1 + 1 + 1
  | SETCC => BUILTIN_OP_END + 1 + 1 + 1 + 1 + 1 + 1 + 1 + 1 + 1
  | BR_CC => BUILTIN_OP_END + 1 + 1 + 1 + 1 + 1 + 1 + 1 + 1 + 1 + 1
  | SELECT_CC => BUILTIN_OP_END + 1 + 1 + 1 + 1 + 1 + 1 + 1 + 1 + 1 + 1 + 1
  | XBIT_FLAG => BUILTIN_OP_END + 1 + 1 + 1 + 1 + 1 + 1 + 1 + 1 + 1 + 1 + 1 + 1
  | XBIT => BUILTIN_OP_END + 1 + 1 + 1 + 1 + 1 + 1 + 1 + 1 + 1 + 1 + 1 + 1 + 1

/-- The target opcodes: the enumerators after the marker `FIRST_NUMBER`. -/
def opcodes : List NodeType := enumerators.tail

end NvfcISD

/-- The closed list of tagged custom operations as the specification words it, in its order. -/
inductive TaggedCustomOperation where
  | Return
  | ReturnFromInterrupt
  | RotateRightArithmetic
  | RotateLeftArithmetic
  | RotateRightWithCarry
  | Call
  | SymbolWrapper
  | Compare
  | SetCondition
  | BranchOnCondition
  | SelectOnCondition
  | ExtractFlagBit
  | ExtractRegisterBit
  deriving DecidableEq, Repr

namespace TaggedCustomOperation

/-- The operations of the specification's list, in the order of the list. -/
def all : List TaggedCustomOperation :=
  [Return, ReturnFromInterrupt, RotateRightArithmetic, RotateLeftArithmetic,
   RotateRightWithCarry, Call, SymbolWrapper, Compare, SetCondition, BranchOnCondition,
   SelectOnCondition, ExtractFlagBit, ExtractRegisterBit]

/-- The enumerator that stands for an operation of the specification, after the comments of
the `enum`. -/
def toNodeType : TaggedCustomOperation → NvfcISD.NodeType
  | Return => .RET_FLAG
  | ReturnFromInterrupt => .RETI_FLAG
  | RotateRightArithmetic => .RRA
  | RotateLeftArithmetic => .RLA
  | RotateRightWithCarry => .RRC
  | Call => .CALL
  | SymbolWrapper => .Wrapper
  | Compare => .CMP
  | SetCondition => .SETCC
  | BranchOnCondition => .BR_CC
  | SelectOnCondition => .SELECT_CC
  | ExtractFlagBit => .XBIT_FLAG
  | ExtractRegisterBit => .XBIT

end TaggedCustomOperation

/-! ## Lowering of comparisons and of calls

`NvfcISelLowering.h` declares `LowerBR_CC`, `LowerSETCC`, `LowerSELECT_CC`, `LowerCall` and
`LowerCCCCallTo`; their bodies and the calling-convention table are not among the sources.
The definitions of this section follow the specification's description of them. -/

/-- A generic operation handed to the lowering: the three operations that consume the result
of a comparison, with the two compared values `LHS`, `RHS` and the condition code `CC`, and
any other operation. -/
inductive GenericOp where
  | BR_CC (CC LHS RHS Dest : Nat)
  | SETCC (LHS RHS CC : Nat)
  | SELECT_CC (LHS RHS TrueV FalseV CC : Nat)
  | Other (Opcode : Nat)
  deriving DecidableEq, Repr

/-- An operation of the lowered stream. The operands of `SETCC`, `BR_CC` and `SELECT_CC` are
those the comments of the `enum` list; `Flag`, the flag operand produced by a `CMP`, is the
position of that `CMP` in the stream (the flag dependency edge). -/
inductive TargetOp where
  | CMP (LHS RHS : Nat)
  | SETCC (CC Flag : Nat)
  | BR_CC (Dest CC Flag : Nat)
  | SELECT_CC (TrueV FalseV CC Flag : Nat)
  | Other (Opcode : Nat)
  deriving DecidableEq, Repr

namespace TargetOp

/-- The flag operand of a consumer of a comparison; `none` for the other operations. -/
def flag : TargetOp → Option Nat
  | SETCC _ f => some f
  | BR_CC _ _ f => some f
  | SELECT_CC _ _ _ f => some f
  | _ => none

/-- The operation is a `CMP`. -/
def isCMP : TargetOp → Bool
  | CMP _ _ => true
  | _ => false

end TargetOp

/-- Modelled from the spec: the bodies of `LowerBR_CC`, `LowerSETCC` and `LowerSELECT_CC` are not
among the sources. After the specification, lowering emits one Compare per comparison,
attaches its result as the flag dependency edge of the operation that consumes it, keeps the
Compare before its consumer, and emits SetCondition where the boolean is materialized into a
register. `pos` is the position in the stream of the next operation emitted. -/
def lowerFrom (pos : Nat) : List GenericOp → List TargetOp
  | [] => []
  | .BR_CC CC LHS RHS Dest :: ops =>
    .CMP LHS RHS :: .BR_CC Dest CC pos :: lowerFrom (pos + 2) ops
  | .SETCC LHS RHS CC :: ops =>
    .CMP LHS RHS :: .SETCC CC pos :: lowerFrom (pos + 2) ops
  | .SELECT_CC LHS RHS TrueV FalseV CC :: ops =>
    .CMP LHS RHS :: .SELECT_CC TrueV FalseV CC pos :: lowerFrom (pos + 2) ops
  | .Other Opcode :: ops => .Other Opcode :: lowerFrom (pos + 1) ops

/-- Modelled from the spec: the instruction stream that lowering produces for a sequence of
generic operations (see `lowerFrom`). -/
def lower (ops : List GenericOp) : List TargetOp := lowerFrom 0 ops

/-- Where the calling convention places an argument: an argument register or a stack slot
(slots are numbered from 0 in the order they are allocated). -/
inductive ArgLoc where
  | Reg (R : Nat)
  | Stack (Slot : Nat)
  deriving DecidableEq, Repr

/-- An outgoing argument of a call (`ISD::OutputArg` with its value): the value, and whether
the argument belongs to the fixed-arity part of the signature. -/
structure OutputArg where
  Val : Nat
  IsFixed : Bool
  deriving DecidableEq, Repr

/-- Modelled from the spec: the body of `LowerCCCCallTo` and the calling-convention table are not
among the sources. After the specification, the arguments are assigned, in declaration order,
to the fixed sequence of argument registers first, and the remaining arguments to stack slots
in declaration order; a variadic argument is always passed on the stack. `Regs` are the
argument registers still free and `Slot` the next stack slot. -/
def assignArgs (Regs : List Nat) (Slot : Nat) : List OutputArg → List (OutputArg × ArgLoc)
  | [] => []
  | a :: as =>
    match a.IsFixed, Regs with
    | true, R :: Rs => (a, .Reg R) :: assignArgs Rs Slot as
    | _, _ => (a, .Stack Slot) :: assignArgs Regs (Slot + 1) as

/-- Modelled from the spec: the placement of the arguments of a call that `LowerCall` /
`LowerCCCCallTo` produce, for the ISA's sequence `ArgRegs` of argument registers. -/
def LowerCCCCallTo (ArgRegs : List Nat) (Outs : List OutputArg) : List (OutputArg × ArgLoc) :=
  assignArgs ArgRegs 0 Outs

/-! ## Auxiliary facts -/

theorem toUInt64_ne_zero {v : Int} (hr : isInt64 v) (h0 : v ≠ 0) : toUInt64 v ≠ 0 := by
  unfold isInt64 at hr
  unfold toUInt64
  omega

theorem toUInt64_zero : toUInt64 0 = 0 := by decide

theorem strcmp_nohash_nohash : strcmp "nohash" "nohash" = 0 := by decide

theorem strcmp_mem_nohash : strcmp "mem" "nohash" ≠ 0 := by decide

theorem strcmp_nohash_mem : strcmp "nohash" "mem" ≠ 0 := by decide

theorem strcmp_mem_mem : strcmp "mem" "mem" = 0 := by decide

/-! ## `printOperand` on a global address -/

/-- C1: on a global address with symbol text `s` and non-zero offset, `printOperand` appends
`#(k+s)` with no modifier, `(k+s)` with `"nohash"` and `&(k+s)` with `"mem"`, where `k` is
the decimal of the 64-bit offset as `printOperand` reads it (`uint64_t Offset`). -/
theorem printOperand_global_offset (T : Tables) (MI : MachineInstr) (OpNum : Nat)
    (O : raw_ostream) (GV : GlobalValue) (Off : Int)
    (hop : MI.getOperand OpNum = some (.MO_GlobalAddress GV Off))
    (hr : isInt64 Off) (h0 : Off ≠ 0) :
    printOperand T MI OpNum O none
        = .ret () (O ++ ("#(" ++ decimal (toUInt64 Off) ++ "+" ++ T.getSymbol GV ++ ")"))
    ∧ printOperand T MI OpNum O (some "nohash")
        = .ret () (O ++ ("(" ++ decimal (toUInt64 Off) ++ "+" ++ T.getSymbol GV ++ ")"))
    ∧ printOperand T MI OpNum O (some "mem")
        = .ret () (O ++ ("&(" ++ decimal (toUInt64 Off) ++ "+" ++ T.getSymbol GV ++ ")")) := by
  have hk := toUInt64_ne_zero hr h0
  refine ⟨?_, ?_, ?_⟩
  · simp [printOperand, hop, hk, String.ext_iff, String.data_append, String.data_push]
  · simp [printOperand, hop, hk, strcmp_nohash_nohash, String.ext_iff, String.data_append,
      String.data_push]
  · simp [printOperand, hop, hk, strcmp_mem_nohash, strcmp_mem_mem, String.ext_iff,
      String.data_append, String.data_push]

/-- Witness of C1: the global `foo` at offset 4 prints as `#(4+foo)`, `(4+foo)`, `&(4+foo)`. -/
theorem printOperand_global_offset_witness :
    (mkInstr [.MO_GlobalAddress ⟨"foo"⟩ 4]).getOperand 0 = some (.MO_GlobalAddress ⟨"foo"⟩ 4)
    ∧ isInt64 4 ∧ (4 : Int) ≠ 0
    ∧ printOperand sampleTables (mkInstr [.MO_GlobalAddress ⟨"foo"⟩ 4]) 0 "" none
        = .ret () "#(4+foo)"
    ∧ printOperand sampleTables (mkInstr [.MO_GlobalAddress ⟨"foo"⟩ 4]) 0 "" (some "nohash")
        = .ret () "(4+foo)"
    ∧ printOperand sampleTables (mkInstr [.MO_GlobalAddress ⟨"foo"⟩ 4]) 0 "" (some "mem")
        = .ret () "&(4+foo)" :=
  ⟨rfl, by decide, by decide,
    printOperand_global_offset sampleTables (mkInstr [.MO_GlobalAddress ⟨"foo"⟩ 4]) 0 ""
      ⟨"foo"⟩ 4 rfl (by decide) (by decide)⟩

/-- C2: on a global address with symbol text `s` and offset 0, `printOperand` appends `#s`
with no modifier, `s` alone with `"nohash"` and `&s` with `"mem"`. -/
theorem printOperand_global_zero (T : Tables) (MI : MachineInstr) (OpNum : Nat)
    (O : raw_ostream) (GV : GlobalValue)
    (hop : MI.getOperand OpNum = some (.MO_GlobalAddress GV 0)) :
    printOperand T MI OpNum O none = .ret () (O ++ ("#" ++ T.getSymbol GV))
    ∧ printOperand T MI OpNum O (some "nohash") = .ret () (O ++ T.getSymbol GV)
    ∧ printOperand T MI OpNum O (some "mem") = .ret () (O ++ ("&" ++ T.getSymbol GV)) := by
  refine ⟨?_, ?_, ?_⟩
  · simp [printOperand, hop, toUInt64_zero, String.ext_iff, String.data_append,
      String.data_push]
  · simp [printOperand, hop, toUInt64_zero, strcmp_nohash_nohash]
  · simp [printOperand, hop, toUInt64_zero, strcmp_mem_nohash, strcmp_mem_mem,
      String.ext_iff, String.data_append, String.data_push]

/-- Witness of C2: the global `foo` at offset 0 prints as `#foo`, `foo`, `&foo`. -/
theorem printOperand_global_zero_witness :
    (mkInstr [.MO_GlobalAddress ⟨"foo"⟩ 0]).getOperand 0 = some (.MO_GlobalAddress ⟨"foo"⟩ 0)
    ∧ printOperand sampleTables (mkInstr [.MO_GlobalAddress ⟨"foo"⟩ 0]) 0 "" none
        = .ret () "#foo"
    ∧ printOperand sampleTables (mkInstr [.MO_GlobalAddress ⟨"foo"⟩ 0]) 0 "" (some "nohash")
        = .ret () "foo"
    ∧ printOperand sampleTables (mkInstr [.MO_GlobalAddress ⟨"foo"⟩ 0]) 0 "" (some "mem")
        = .ret () "&foo" :=
  ⟨rfl, printOperand_global_zero sampleTables (mkInstr [.MO_GlobalAddress ⟨"foo"⟩ 0]) 0 ""
      ⟨"foo"⟩ rfl⟩

/-! ## `printOperand` on an immediate -/

/-- C3: on an immediate `v`, `printOperand` appends `#` and the signed decimal of `v` with no
modifier, and the signed decimal of `v` alone with `"nohash"`. -/
theorem printOperand_immediate (T : Tables) (MI : MachineInstr) (OpNum : Nat)
    (O : raw_ostream) (v : Int)
    (hop : MI.getOperand OpNum = some (.MO_Immediate v)) :
    printOperand T MI OpNum O none = .ret () (O ++ ("#" ++ signedDecimal v))
    ∧ printOperand T MI OpNum O (some "nohash") = .ret () (O ++ signedDecimal v) := by
  refine ⟨?_, ?_⟩
  · simp [printOperand, hop, String.ext_iff, String.data_append, String.data_push]
  · simp [printOperand, hop, strcmp_nohash_nohash]

/-- Witness of C3: the immediate 5 prints as `#5` and `5`. -/
theorem printOperand_immediate_witness :
    (mkInstr [.MO_Immediate 5]).getOperand 0 = some (.MO_Immediate 5)
    ∧ printOperand sampleTables (mkInstr [.MO_Immediate 5]) 0 "" none = .ret () "#5"
    ∧ printOperand sampleTables (mkInstr [.MO_Immediate 5]) 0 "" (some "nohash")
        = .ret () "5" :=
  ⟨rfl, printOperand_immediate sampleTables (mkInstr [.MO_Immediate 5]) 0 "" 5 rfl⟩

/-! ## `printOperand` on an external symbol -/

/-- C8: on an external symbol `n`, with global prefix `p`, `printOperand` appends `#pn` with
no modifier and `&pn` with `"mem"`; whatever the modifier, the text is one of these two, so
no offset and no parenthesis is written. -/
theorem printOperand_external (T : Tables) (MI : MachineInstr) (OpNum : Nat)
    (O : raw_ostream) (n : String)
    (hop : MI.getOperand OpNum = some (.MO_ExternalSymbol n)) :
    printOperand T MI OpNum O none = .ret () (O ++ ("#" ++ T.getGlobalPrefix ++ n))
    ∧ printOperand T MI OpNum O (some "mem") = .ret () (O ++ ("&" ++ T.getGlobalPrefix ++ n))
    ∧ ∀ Modifier : Option String,
        printOperand T MI OpNum O Modifier = .ret () (O ++ ("#" ++ T.getGlobalPrefix ++ n))
        ∨ printOperand T MI OpNum O Modifier
            = .ret () (O ++ ("&" ++ T.getGlobalPrefix ++ n)) := by
  refine ⟨?_, ?_, ?_⟩
  · simp [printOperand, hop, String.ext_iff, String.data_append, String.data_push]
  · simp [printOperand, hop, strcmp_mem_mem, String.ext_iff, String.data_append,
      String.data_push]
  · intro Modifier
    cases Modifier with
    | none =>
      left
      simp [printOperand, hop, String.ext_iff, String.data_append, String.data_push]
    | some m =>
      by_cases hm : strcmp m "mem" = 0
      · right
        simp [printOperand, hop, hm, String.ext_iff, String.data_append, String.data_push]
      · left
        simp [printOperand, hop, hm, String.ext_iff, String.data_append, String.data_push]

/-- Witness of C8: the external symbol `memcpy` prints as `#memcpy` and `&memcpy`. -/
theorem printOperand_external_witness :
    (mkInstr [.MO_ExternalSymbol "memcpy"]).getOperand 0 = some (.MO_ExternalSymbol "memcpy")
    ∧ printOperand sampleTables (mkInstr [.MO_ExternalSymbol "memcpy"]) 0 "" none
        = .ret () "#memcpy"
    ∧ printOperand sampleTables (mkInstr [.MO_ExternalSymbol "memcpy"]) 0 "" (some "mem")
        = .ret () "&memcpy" :=
  ⟨rfl,
    (printOperand_external sampleTables (mkInstr [.MO_ExternalSymbol "memcpy"]) 0 ""
      "memcpy" rfl).1,
    (printOperand_external sampleTables (mkInstr [.MO_ExternalSymbol "memcpy"]) 0 ""
      "memcpy" rfl).2.1⟩

/-! ## `printOperand` and the stream -/

/-- What `printOperand` appends does not depend on the text already in the stream. -/
theorem printOperand_append (T : Tables) (MI : MachineInstr) (OpNum : Nat)
    (O : raw_ostream) (Modifier : Option String) (t : String)
    (h : printOperand T MI OpNum "" Modifier = .ret () t) :
    printOperand T MI OpNum O Modifier = .ret () (O ++ t) := by
  unfold printOperand at h ⊢
  cases hop : MI.getOperand OpNum with
  | none => simp [hop] at h
  | some MO =>
    cases MO with
    | MO_Other k => simp [hop] at h
    | MO_Register r =>
      simp only [hop, Outcome.ret.injEq, true_and] at h ⊢
      rw [← h]; simp [String.ext_iff, String.data_append]
    | MO_MachineBasicBlock b =>
      simp only [hop, Outcome.ret.injEq, true_and] at h ⊢
      rw [← h]; simp [String.ext_iff, String.data_append]
    | MO_Immediate v =>
      simp only [hop, Outcome.ret.injEq, true_and] at h ⊢
      rw [← h]
      cases Modifier with
      | none => simp [String.ext_iff, String.data_append, String.data_push]
      | some m =>
        by_cases hm : strcmp m "nohash" = 0 <;>
          simp [hm, String.ext_iff, String.data_append, String.data_push]
    | MO_ExternalSymbol n =>
      simp only [hop, Outcome.ret.injEq, true_and] at h ⊢
      rw [← h]
      simp [String.ext_iff, String.data_append, String.data_push]
    | MO_GlobalAddress GV Off =>
      simp only [hop, Outcome.ret.injEq, true_and] at h ⊢
      rw [← h]
      by_cases hk : toUInt64 Off = 0
      · cases Modifier with
        | none => simp [hk, String.ext_iff, String.data_append, String.data_push]
        | some m =>
          by_cases hm : strcmp m "nohash" = 0 <;>
            simp [hk, hm, String.ext_iff, String.data_append, String.data_push]
      · cases Modifier with
        | none => simp [hk, String.ext_iff, String.data_append, String.data_push]
        | some m =>
          by_cases hm : strcmp m "nohash" = 0 <;>
            simp [hk, hm, String.ext_iff, String.data_append, String.data_push]

/-- On an operand of a supported kind `printOperand` returns. -/
theorem printOperand_returns (T : Tables) (MI : MachineInstr) (OpNum : Nat)
    (O : raw_ostream) (Modifier : Option String) (MO : MachineOperand)
    (hop : MI.getOperand OpNum = some MO) (hs : MO.supported = true) :
    ∃ O1, printOperand T MI OpNum O Modifier = .ret () O1 := by
  unfold printOperand
  cases MO with
  | MO_Other k => simp [MachineOperand.supported] at hs
  | MO_Register r => simp only [hop]; exact ⟨_, rfl⟩
  | MO_MachineBasicBlock b => simp only [hop]; exact ⟨_, rfl⟩
  | MO_Immediate v => simp only [hop]; exact ⟨_, rfl⟩
  | MO_ExternalSymbol n => simp only [hop]; exact ⟨_, rfl⟩
  | MO_GlobalAddress GV Off => simp only [hop]; exact ⟨_, rfl⟩

/-! ## `printSrcMemOperand` -/

/-- The text of `printSrcMemOperand` on a base register `r` and a displacement that
`printOperand` renders, in the `"nohash"` form, as `disp`. -/
theorem printSrcMemOperand_register (T : Tables) (MI : MachineInstr) (OpNum : Nat)
    (O : raw_ostream) (r : Nat) (Disp : MachineOperand) (disp : String)
    (hb : MI.getOperand OpNum = some (.MO_Register r))
    (hd : MI.getOperand (OpNum + 1) = some Disp)
    (hdisp : printOperand T MI (OpNum + 1) "" (some "nohash") = .ret () disp) :
    printSrcMemOperand T MI OpNum O
      = .ret () (O ++ ((if Disp.isImm = true ∧ r = 0 then "&" else "") ++ disp
          ++ (if r ≠ 0 then "(" ++ T.getRegisterName r ++ ")" else ""))) := by
  have hbase : ∀ S : raw_ostream,
      printOperand T MI OpNum S none = .ret () (S ++ T.getRegisterName r) := by
    intro S
    simp [printOperand, hb]
  unfold printSrcMemOperand
  by_cases hi : Disp.isImm = true <;> by_cases hr : r = 0
  · simp [hb, hd, MachineOperand.getReg, hi, hr,
      printOperand_append T MI (OpNum + 1) _ (some "nohash") disp hdisp,
      String.ext_iff, String.data_append, String.data_push]
  · simp [hb, hd, MachineOperand.getReg, hi, hr, hbase,
      printOperand_append T MI (OpNum + 1) _ (some "nohash") disp hdisp,
      String.ext_iff, String.data_append, String.data_push]
  · simp [hb, hd, MachineOperand.getReg, hi, hr,
      printOperand_append T MI (OpNum + 1) _ (some "nohash") disp hdisp,
      String.ext_iff, String.data_append, String.data_push]
  · simp [hb, hd, MachineOperand.getReg, hi, hr, hbase,
      printOperand_append T MI (OpNum + 1) _ (some "nohash") disp hdisp,
      String.ext_iff, String.data_append, String.data_push]

/-- The `"nohash"` text of a global address at offset 0 is its symbol alone. -/
theorem printOperand_nohash_global_zero (T : Tables) (MI : MachineInstr) (OpNum : Nat)
    (GV : GlobalValue) (hop : MI.getOperand OpNum = some (.MO_GlobalAddress GV 0)) :
    printOperand T MI OpNum "" (some "nohash") = .ret () (T.getSymbol GV) := by
  simp [printOperand, hop, toUInt64_zero, strcmp_nohash_nohash, String.ext_iff,
    String.data_append]

/-- The `"nohash"` text of an immediate is its signed decimal. -/
theorem printOperand_nohash_immediate (T : Tables) (MI : MachineInstr) (OpNum : Nat)
    (v : Int) (hop : MI.getOperand OpNum = some (.MO_Immediate v)) :
    printOperand T MI OpNum "" (some "nohash") = .ret () (signedDecimal v) := by
  simp [printOperand, hop, strcmp_nohash_nohash, String.ext_iff, String.data_append]

/-- C4, as the code has it: with a base register present and the displacement a global
address at offset 0, `printSrcMemOperand` appends the symbol of the global, not
parenthesised, and then the base register's name in parentheses. -/
theorem printSrcMemOperand_global_zero_base (T : Tables) (MI : MachineInstr) (OpNum : Nat)
    (O : raw_ostream) (r : Nat) (GV : GlobalValue)
    (hb : MI.getOperand OpNum = some (.MO_Register r)) (hr : r ≠ 0)
    (hd : MI.getOperand (OpNum + 1) = some (.MO_GlobalAddress GV 0)) :
    printSrcMemOperand T MI OpNum O
      = .ret () (O ++ (T.getSymbol GV ++ "(" ++ T.getRegisterName r ++ ")")) := by
  rw [printSrcMemOperand_register T MI OpNum O r _ _ hb hd
    (printOperand_nohash_global_zero T MI (OpNum + 1) GV hd)]
  simp [hr, MachineOperand.isImm, String.ext_iff, String.data_append]

/-- Witness of C4 as amended: base `r4`, displacement `foo` at offset 0, gives `foo(r4)`. -/
theorem printSrcMemOperand_global_zero_base_witness :
    (mkInstr [.MO_Register 4, .MO_GlobalAddress ⟨"foo"⟩ 0]).getOperand 0
        = some (.MO_Register 4)
    ∧ 4 ≠ 0
    ∧ (mkInstr [.MO_Register 4, .MO_GlobalAddress ⟨"foo"⟩ 0]).getOperand (0 + 1)
        = some (.MO_GlobalAddress ⟨"foo"⟩ 0)
    ∧ printSrcMemOperand sampleTables (mkInstr [.MO_Register 4, .MO_GlobalAddress ⟨"foo"⟩ 0])
        0 "" = .ret () "foo(r4)" :=
  ⟨rfl, by decide, rfl,
    printSrcMemOperand_global_zero_base sampleTables
      (mkInstr [.MO_Register 4, .MO_GlobalAddress ⟨"foo"⟩ 0]) 0 "" 4 ⟨"foo"⟩ rfl (by decide)
      rfl⟩

/-- C4, counterexample: base `r4` and displacement `foo` at offset 0 are rendered `foo(r4)`,
which is not `(foo)(r4)`. -/
theorem printSrcMemOperand_global_zero_base_counterexample :
    printSrcMemOperand sampleTables (mkInstr [.MO_Register 4, .MO_GlobalAddress ⟨"foo"⟩ 0])
        0 "" = .ret () "foo(r4)"
    ∧ printSrcMemOperand sampleTables (mkInstr [.MO_Register 4, .MO_GlobalAddress ⟨"foo"⟩ 0])
        0 "" ≠ .ret () ("(" ++ sampleTables.getSymbol ⟨"foo"⟩ ++ ")("
              ++ sampleTables.getRegisterName 4 ++ ")") := by
  decide

/-- C5, as the code has it: with the base register absent (register 0), an immediate
displacement `v` is written as `&` and the signed decimal of `v`, and a global-address
displacement is written as `printOperand` writes it with `"nohash"`, with no `&`. -/
theorem printSrcMemOperand_absent_base (T : Tables) (MI : MachineInstr) (OpNum : Nat)
    (O : raw_ostream) (Disp : MachineOperand)
    (hb : MI.getOperand OpNum = some (.MO_Register 0))
    (hd : MI.getOperand (OpNum + 1) = some Disp) :
    (∀ v, Disp = .MO_Immediate v →
      printSrcMemOperand T MI OpNum O = .ret () (O ++ ("&" ++ signedDecimal v)))
    ∧ (∀ GV Off, Disp = .MO_GlobalAddress GV Off →
      printSrcMemOperand T MI OpNum O = printOperand T MI (OpNum + 1) O (some "nohash")) := by
  constructor
  · intro v hv
    subst hv
    rw [printSrcMemOperand_register T MI OpNum O 0 _ _ hb hd
      (printOperand_nohash_immediate T MI (OpNum + 1) v hd)]
    simp [MachineOperand.isImm, String.ext_iff, String.data_append]
  · intro GV Off hg
    subst hg
    obtain ⟨t, ht⟩ := printOperand_returns T MI (OpNum + 1) "" (some "nohash") _ hd rfl
    rw [printSrcMemOperand_register T MI OpNum O 0 _ t hb hd ht,
      printOperand_append T MI (OpNum + 1) O (some "nohash") t ht]
    simp [MachineOperand.isImm, String.ext_iff, String.data_append]

/-- Witness of C5 as amended: with no base register the immediate 100 gives `&100`. -/
theorem printSrcMemOperand_absent_base_witness :
    (mkInstr [.MO_Register 0, .MO_Immediate 100]).getOperand 0 = some (.MO_Register 0)
    ∧ (mkInstr [.MO_Register 0, .MO_Immediate 100]).getOperand (0 + 1)
        = some (.MO_Immediate 100)
    ∧ printSrcMemOperand sampleTables (mkInstr [.MO_Register 0, .MO_Immediate 100]) 0 ""
        = .ret () "&100" :=
  ⟨rfl, rfl,
    (printSrcMemOperand_absent_base sampleTables
      (mkInstr [.MO_Register 0, .MO_Immediate 100]) 0 "" (.MO_Immediate 100) rfl rfl).1
      100 rfl⟩

/-- C5, counterexample: with no base register the global `foo` is rendered `foo`; the text
does not begin with `&`. -/
theorem printSrcMemOperand_absent_base_counterexample :
    printSrcMemOperand sampleTables (mkInstr [.MO_Register 0, .MO_GlobalAddress ⟨"foo"⟩ 0])
        0 "" = .ret () "foo"
    ∧ ∀ rest : String,
        printSrcMemOperand sampleTables
          (mkInstr [.MO_Register 0, .MO_GlobalAddress ⟨"foo"⟩ 0]) 0 ""
          ≠ .ret () ("&" ++ rest) := by
  have h : printSrcMemOperand sampleTables
      (mkInstr [.MO_Register 0, .MO_GlobalAddress ⟨"foo"⟩ 0]) 0 "" = .ret () "foo" := by
    decide
  refine ⟨h, ?_⟩
  intro rest hrest
  rw [h] at hrest
  simp [String.ext_iff, String.data_append] at hrest

/-- C6, at the failing input: base `r4` and an external-symbol displacement `memcpy`.
`printSrcMemOperand` asks for the `"nohash"` form, the external-symbol case of
`printOperand` writes `#` all the same, and the text is `#memcpy(r4)`; the global `memcpy`
in the same place gives `memcpy(r4)`. -/
theorem printSrcMemOperand_external_hash :
    printSrcMemOperand sampleTables (mkInstr [.MO_Register 4, .MO_ExternalSymbol "memcpy"])
        0 "" = .ret () "#memcpy(r4)"
    ∧ printSrcMemOperand sampleTables
        (mkInstr [.MO_Register 4, .MO_GlobalAddress ⟨"memcpy"⟩ 0]) 0 ""
        = .ret () "memcpy(r4)" := by
  decide

/-- C9: on a base register `r` and a displacement whose `"nohash"` text is `disp`,
`printSrcMemOperand` appends the displacement (behind `&` when it is an immediate and the
base is absent) and then, exactly when `r ≠ 0`, the name of `r` in parentheses, whether or
not the `&` was written; when `r = 0` nothing follows the displacement. -/
theorem printSrcMemOperand_base_suffix (T : Tables) (MI : MachineInstr) (OpNum : Nat)
    (O : raw_ostream) (r : Nat) (Disp : MachineOperand) (disp : String)
    (hb : MI.getOperand OpNum = some (.MO_Register r))
    (hd : MI.getOperand (OpNum + 1) = some Disp)
    (hdisp : printOperand T MI (OpNum + 1) "" (some "nohash") = .ret () disp) :
    (r ≠ 0 → printSrcMemOperand T MI OpNum O
        = .ret () (O ++ (disp ++ ("(" ++ T.getRegisterName r ++ ")"))))
    ∧ (r = 0 → printSrcMemOperand T MI OpNum O
        = .ret () (O ++ ((if Disp.isImm = true then "&" else "") ++ disp))) := by
  have h := printSrcMemOperand_register T MI OpNum O r Disp disp hb hd hdisp
  constructor
  · intro hr
    rw [h]
    simp [hr, String.ext_iff, String.data_append]
  · intro hr
    rw [h]
    by_cases hi : Disp.isImm = true <;>
      simp [hr, hi, String.ext_iff, String.data_append]

/-- Witness of C9: base `r4` and displacement `foo` at offset 4 give `(4+foo)(r4)`. -/
theorem printSrcMemOperand_base_suffix_witness :
    (mkInstr [.MO_Register 4, .MO_GlobalAddress ⟨"foo"⟩ 4]).getOperand 0
        = some (.MO_Register 4)
    ∧ (mkInstr [.MO_Register 4, .MO_GlobalAddress ⟨"foo"⟩ 4]).getOperand (0 + 1)
        = some (.MO_GlobalAddress ⟨"foo"⟩ 4)
    ∧ printOperand sampleTables (mkInstr [.MO_Register 4, .MO_GlobalAddress ⟨"foo"⟩ 4])
        (0 + 1) "" (some "nohash") = .ret () "(4+foo)"
    ∧ 4 ≠ 0
    ∧ printSrcMemOperand sampleTables (mkInstr [.MO_Register 4, .MO_GlobalAddress ⟨"foo"⟩ 4])
        0 "" = .ret () "(4+foo)(r4)" :=
  ⟨rfl, rfl, by decide, by decide,
    (printSrcMemOperand_base_suffix sampleTables
      (mkInstr [.MO_Register 4, .MO_GlobalAddress ⟨"foo"⟩ 4]) 0 "" 4
      (.MO_GlobalAddress ⟨"foo"⟩ 4) "(4+foo)" rfl rfl (by decide)).1 (by decide)⟩

/-! ## The inline-asm entry point `PrintAsmOperand` -/

/-- C7: when `ExtraCode` is non-null and its first character is not NUL, `PrintAsmOperand`
returns `true` and the stream is as it was. -/
theorem PrintAsmOperand_unknown_modifier (T : Tables) (MI : MachineInstr) (OpNo : Nat)
    (AsmVariant : Nat) (s : String) (O : raw_ostream) (h : firstChar s ≠ '\x00') :
    PrintAsmOperand T MI OpNo AsmVariant (some s) O = .ret true O := by
  simp [PrintAsmOperand, h]

/-- Witness of C7: the modifier `c` on an immediate is refused and nothing is written. -/
theorem PrintAsmOperand_unknown_modifier_witness :
    firstChar "c" ≠ '\x00'
    ∧ PrintAsmOperand sampleTables (mkInstr [.MO_Immediate 5]) 0 0 (some "c") "mov "
        = .ret true "mov " :=
  ⟨by decide,
    PrintAsmOperand_unknown_modifier sampleTables (mkInstr [.MO_Immediate 5]) 0 0 "c" "mov "
      (by decide)⟩

/-- C10, as the code has it: when `ExtraCode` is null or empty and the operand is of a
supported kind, `PrintAsmOperand` returns `false` and leaves the stream as `printOperand`
with no modifier leaves it. -/
theorem PrintAsmOperand_no_modifier (T : Tables) (MI : MachineInstr) (OpNo : Nat)
    (AsmVariant : Nat) (ExtraCode : Option String) (O : raw_ostream) (MO : MachineOperand)
    (hop : MI.getOperand OpNo = some MO) (hs : MO.supported = true)
    (he : ExtraCode = none ∨ ∃ s, ExtraCode = some s ∧ firstChar s = '\x00') :
    ∃ O1, printOperand T MI OpNo O none = .ret () O1
      ∧ PrintAsmOperand T MI OpNo AsmVariant ExtraCode O = .ret false O1 := by
  obtain ⟨O1, h1⟩ := printOperand_returns T MI OpNo O none MO hop hs
  refine ⟨O1, h1, ?_⟩
  rcases he with he | ⟨s, he, hc⟩
  · simp [PrintAsmOperand, he, h1]
  · simp [PrintAsmOperand, he, hc, h1]

/-- Witness of C10 as amended: with a null `ExtraCode` the immediate 5 is written as `#5`. -/
theorem PrintAsmOperand_no_modifier_witness :
    (mkInstr [.MO_Immediate 5]).getOperand 0 = some (.MO_Immediate 5)
    ∧ (MachineOperand.MO_Immediate 5).supported = true
    ∧ ∃ O1, printOperand sampleTables (mkInstr [.MO_Immediate 5]) 0 "" none = .ret () O1
        ∧ PrintAsmOperand sampleTables (mkInstr [.MO_Immediate 5]) 0 0 none ""
            = .ret false O1 :=
  ⟨rfl, rfl,
    PrintAsmOperand_no_modifier sampleTables (mkInstr [.MO_Immediate 5]) 0 0 none ""
      (.MO_Immediate 5) rfl rfl (Or.inl rfl)⟩

/-- C10, counterexample: with `ExtraCode = "nohash"` (and likewise `"mem"`) `PrintAsmOperand`
returns `true` on the immediate 5 and writes nothing, where `printOperand` with that
modifier writes `5` (`#5`). -/
theorem PrintAsmOperand_no_modifier_counterexample :
    PrintAsmOperand sampleTables (mkInstr [.MO_Immediate 5]) 0 0 (some "nohash") ""
        = .ret true ""
    ∧ printOperand sampleTables (mkInstr [.MO_Immediate 5]) 0 "" (some "nohash")
        = .ret () "5"
    ∧ PrintAsmOperand sampleTables (mkInstr [.MO_Immediate 5]) 0 0 (some "mem") ""
        = .ret true ""
    ∧ printOperand sampleTables (mkInstr [.MO_Immediate 5]) 0 "" (some "mem")
        = .ret () "#5" := by
  decide

/-! ## The absolute form of `printSrcMemOperand` -/

/-- C11: with the base register absent (register 0) and an immediate displacement `v`,
`printSrcMemOperand` appends exactly `&` and the signed decimal of `v`: no `#` before the
number and no parenthesised register after it. -/
theorem printSrcMemOperand_immediate_absolute (T : Tables) (MI : MachineInstr) (OpNum : Nat)
    (O : raw_ostream) (v : Int)
    (hb : MI.getOperand OpNum = some (.MO_Register 0))
    (hd : MI.getOperand (OpNum + 1) = some (.MO_Immediate v)) :
    printSrcMemOperand T MI OpNum O = .ret () (O ++ ("&" ++ signedDecimal v)) := by
  rw [printSrcMemOperand_register T MI OpNum O 0 _ _ hb hd
    (printOperand_nohash_immediate T MI (OpNum + 1) v hd)]
  simp [MachineOperand.isImm, String.ext_iff, String.data_append]

/-- Witness of C11: no base register and the immediate 100 give `&100`; the immediate -2
gives `&-2`. -/
theorem printSrcMemOperand_immediate_absolute_witness :
    (mkInstr [.MO_Register 0, .MO_Immediate 100]).getOperand 0 = some (.MO_Register 0)
    ∧ (mkInstr [.MO_Register 0, .MO_Immediate 100]).getOperand (0 + 1)
        = some (.MO_Immediate 100)
    ∧ printSrcMemOperand sampleTables (mkInstr [.MO_Register 0, .MO_Immediate 100]) 0 ""
        = .ret () "&100"
    ∧ printSrcMemOperand sampleTables (mkInstr [.MO_Register 0, .MO_Immediate (-2)]) 0 ""
        = .ret () "&-2" :=
  ⟨rfl, rfl,
    printSrcMemOperand_immediate_absolute sampleTables
      (mkInstr [.MO_Register 0, .MO_Immediate 100]) 0 "" 100 rfl rfl,
    printSrcMemOperand_immediate_absolute sampleTables
      (mkInstr [.MO_Register 0, .MO_Immediate (-2)]) 0 "" (-2) rfl rfl⟩

/-! ## Registers, blocks and unhandled kinds -/

/-- C12: on a register and on a basic block the text of `printOperand` is the same for every
modifier (null, `"nohash"`, `"mem"` or any other string): the register's name, respectively
the block's symbol, with nothing before it. -/
theorem printOperand_register_block (T : Tables) (MI : MachineInstr) (OpNum : Nat)
    (O : raw_ostream) (Modifier : Option String) :
    (∀ r, MI.getOperand OpNum = some (.MO_Register r) →
      printOperand T MI OpNum O Modifier = .ret () (O ++ T.getRegisterName r))
    ∧ (∀ B, MI.getOperand OpNum = some (.MO_MachineBasicBlock B) →
      printOperand T MI OpNum O Modifier = .ret () (O ++ T.getMBBSymbol B)) := by
  constructor
  · intro r hop
    simp [printOperand, hop]
  · intro B hop
    simp [printOperand, hop]

/-- Witness of C12: register 4 prints as `r4` and block 2 as `.LBB2` under `"mem"`, as they do
with no modifier. -/
theorem printOperand_register_block_witness :
    (mkInstr [.MO_Register 4, .MO_MachineBasicBlock ⟨2⟩]).getOperand 0 = some (.MO_Register 4)
    ∧ (mkInstr [.MO_Register 4, .MO_MachineBasicBlock ⟨2⟩]).getOperand 1
        = some (.MO_MachineBasicBlock ⟨2⟩)
    ∧ printOperand sampleTables (mkInstr [.MO_Register 4, .MO_MachineBasicBlock ⟨2⟩]) 0 ""
        (some "mem") = .ret () "r4"
    ∧ printOperand sampleTables (mkInstr [.MO_Register 4, .MO_MachineBasicBlock ⟨2⟩]) 1 ""
        (some "mem") = .ret () ".LBB2" :=
  ⟨rfl, rfl,
    (printOperand_register_block sampleTables
      (mkInstr [.MO_Register 4, .MO_MachineBasicBlock ⟨2⟩]) 0 "" (some "mem")).1 4 rfl,
    (printOperand_register_block sampleTables
      (mkInstr [.MO_Register 4, .MO_MachineBasicBlock ⟨2⟩]) 1 "" (some "mem")).2 ⟨2⟩ rfl⟩

/-- C13: on an operand of a kind other than the five handled ones the assertion of the
`default` case fails: `printOperand` stops, for every modifier, with the stream as it was, and
so does not return any text. -/
theorem printOperand_unhandled_kind (T : Tables) (MI : MachineInstr) (OpNum : Nat)
    (O : raw_ostream) (Modifier : Option String) (MO : MachineOperand)
    (hop : MI.getOperand OpNum = some MO) (hs : MO.supported = false) :
    printOperand T MI OpNum O Modifier = .assertFailed O
    ∧ ∀ O1, printOperand T MI OpNum O Modifier ≠ .ret () O1 := by
  have h : printOperand T MI OpNum O Modifier = .assertFailed O := by
    cases MO with
    | MO_Other k => simp [printOperand, hop]
    | MO_Register r => simp [MachineOperand.supported] at hs
    | MO_MachineBasicBlock b => simp [MachineOperand.supported] at hs
    | MO_Immediate v => simp [MachineOperand.supported] at hs
    | MO_ExternalSymbol n => simp [MachineOperand.supported] at hs
    | MO_GlobalAddress GV Off => simp [MachineOperand.supported] at hs
  refine ⟨h, ?_⟩
  intro O1 h1
  rw [h] at h1
  cases h1

/-- Witness of C13: an operand of kind 7 stops `printOperand` with the stream `mov ` intact. -/
theorem printOperand_unhandled_kind_witness :
    (mkInstr [.MO_Other 7]).getOperand 0 = some (.MO_Other 7)
    ∧ (MachineOperand.MO_Other 7).supported = false
    ∧ printOperand sampleTables (mkInstr [.MO_Other 7]) 0 "mov " none
        = .assertFailed "mov " :=
  ⟨rfl, rfl,
    (printOperand_unhandled_kind sampleTables (mkInstr [.MO_Other 7]) 0 "mov " none
      (.MO_Other 7) rfl rfl).1⟩

/-! ## Rendering does not depend on the stream -/

/-- When `printOperand` returns from some stream, it returns from the empty stream. -/
theorem printOperand_ret_empty (T : Tables) (MI : MachineInstr) (OpNum : Nat)
    (O O1 : raw_ostream) (Modifier : Option String)
    (h : printOperand T MI OpNum O Modifier = .ret () O1) :
    ∃ t, printOperand T MI OpNum "" Modifier = .ret () t := by
  unfold printOperand at h ⊢
  cases hop : MI.getOperand OpNum with
  | none => simp [hop] at h
  | some MO =>
    cases MO with
    | MO_Other k => simp [hop] at h
    | MO_Register r => exact ⟨_, rfl⟩
    | MO_MachineBasicBlock b => exact ⟨_, rfl⟩
    | MO_Immediate v => exact ⟨_, rfl⟩
    | MO_ExternalSymbol n => exact ⟨_, rfl⟩
    | MO_GlobalAddress GV Off => exact ⟨_, rfl⟩

/-- When `printSrcMemOperand` returns, its base operand is a register and `printOperand`
returns on its displacement. -/
theorem printSrcMemOperand_ret_inv (T : Tables) (MI : MachineInstr) (OpNum : Nat)
    (O O1 : raw_ostream) (h : printSrcMemOperand T MI OpNum O = .ret () O1) :
    ∃ r Disp disp, MI.getOperand OpNum = some (.MO_Register r)
      ∧ MI.getOperand (OpNum + 1) = some Disp
      ∧ printOperand T MI (OpNum + 1) "" (some "nohash") = .ret () disp := by
  unfold printSrcMemOperand at h
  cases hB : MI.getOperand OpNum with
  | none => simp [hB] at h
  | some Base =>
    cases hD : MI.getOperand (OpNum + 1) with
    | none => simp [hB, hD] at h
    | some Disp =>
      cases hg : Base.getReg with
      | none =>
        simp only [hB, hD, hg] at h
        split at h
        · cases h
        · split at h
          · cases h
          · cases h
      | some r =>
        have hBr : Base = .MO_Register r := by
          cases Base <;> simp [MachineOperand.getReg] at hg
          exact congrArg _ hg
        subst hBr
        simp only [hB, hD, hg] at h
        split at h
        · cases h
        · split at h
          · cases h
          · rename_i b hb u O2 hp
            obtain ⟨t, ht⟩ := printOperand_ret_empty T MI (OpNum + 1) _ O2 _ hp
            exact ⟨r, Disp, t, rfl, rfl, ht⟩

/-- On a base register and a displacement of a supported kind `printSrcMemOperand` returns,
and what it appends is the same for every stream. -/
theorem printSrcMemOperand_returns (T : Tables) (MI : MachineInstr) (OpNum : Nat)
    (r : Nat) (Disp : MachineOperand)
    (hb : MI.getOperand OpNum = some (.MO_Register r))
    (hd : MI.getOperand (OpNum + 1) = some Disp) (hs : Disp.supported = true) :
    ∃ t, ∀ O, printSrcMemOperand T MI OpNum O = .ret () (O ++ t) := by
  obtain ⟨disp, hdisp⟩ := printOperand_returns T MI (OpNum + 1) "" (some "nohash") Disp hd hs
  exact ⟨_, fun O => printSrcMemOperand_register T MI OpNum O r Disp disp hb hd hdisp⟩

/-- C14: rendering reads nothing that rendering changes. When `printOperand` (likewise
`printSrcMemOperand`) returns on an instruction, an operand index and a modifier, it has
appended a text `t` that does not depend on the stream: a second call on the stream the first
one left appends the same `t`, and so does a call on any other stream. -/
theorem rendering_stream_independent (T : Tables) (MI : MachineInstr) (OpNum : Nat)
    (Modifier : Option String) (O O1 : raw_ostream) :
    (printOperand T MI OpNum O Modifier = .ret () O1 →
      ∃ t, O1 = O ++ t
        ∧ printOperand T MI OpNum O1 Modifier = .ret () (O1 ++ t)
        ∧ ∀ O2, printOperand T MI OpNum O2 Modifier = .ret () (O2 ++ t))
    ∧ (printSrcMemOperand T MI OpNum O = .ret () O1 →
      ∃ t, O1 = O ++ t
        ∧ printSrcMemOperand T MI OpNum O1 = .ret () (O1 ++ t)
        ∧ ∀ O2, printSrcMemOperand T MI OpNum O2 = .ret () (O2 ++ t)) := by
  constructor
  · intro h
    obtain ⟨t, ht⟩ := printOperand_ret_empty T MI OpNum O O1 Modifier h
    have hall : ∀ O2, printOperand T MI OpNum O2 Modifier = .ret () (O2 ++ t) :=
      fun O2 => printOperand_append T MI OpNum O2 Modifier t ht
    have hO : O1 = O ++ t := by
      have h2 := hall O
      rw [h] at h2
      exact Outcome.ret.inj h2 |>.2
    exact ⟨t, hO, hall O1, hall⟩
  · intro h
    obtain ⟨r, Disp, disp, hb, hd, hdisp⟩ := printSrcMemOperand_ret_inv T MI OpNum O O1 h
    have hall := fun O2 => printSrcMemOperand_register T MI OpNum O2 r Disp disp hb hd hdisp
    have hO := hall O
    rw [h] at hO
    exact ⟨_, (Outcome.ret.inj hO).2, hall O1, hall⟩

/-- Witness of C14: `printSrcMemOperand` on base `r4` and displacement `foo` at offset 4 appends
`(4+foo)(r4)` to the empty stream, and the same text again to the stream it left. -/
theorem rendering_stream_independent_witness :
    printSrcMemOperand sampleTables (mkInstr [.MO_Register 4, .MO_GlobalAddress ⟨"foo"⟩ 4])
        0 "" = .ret () "(4+foo)(r4)"
    ∧ ∃ t, "(4+foo)(r4)" = "" ++ t
        ∧ printSrcMemOperand sampleTables
            (mkInstr [.MO_Register 4, .MO_GlobalAddress ⟨"foo"⟩ 4]) 0 "(4+foo)(r4)"
            = .ret () ("(4+foo)(r4)" ++ t)
        ∧ ∀ O2, printSrcMemOperand sampleTables
            (mkInstr [.MO_Register 4, .MO_GlobalAddress ⟨"foo"⟩ 4]) 0 O2
            = .ret () (O2 ++ t) :=
  ⟨by decide,
    (rendering_stream_independent sampleTables
      (mkInstr [.MO_Register 4, .MO_GlobalAddress ⟨"foo"⟩ 4]) 0 none "" "(4+foo)(r4)").2
      (by decide)⟩

/-! ## The inline-asm entry point `PrintAsmMemoryOperand` -/

/-- C20: `PrintAsmMemoryOperand` is all-or-nothing. On a memory operand (a base register and a
displacement of a supported kind) with a null or empty `ExtraCode` it returns `false` and
leaves the stream as `printSrcMemOperand` leaves it; on an `ExtraCode` whose first character
is not NUL it returns `true` and the stream is as it was. `AsmVariant` has no effect on
`PrintAsmMemoryOperand` nor on `PrintAsmOperand`, and two values of `ExtraCode` that are both
empty (null or `""`) or both non-empty give the same result. -/
theorem PrintAsmMemoryOperand_all_or_nothing (T : Tables) (MI : MachineInstr) (OpNo : Nat)
    (AsmVariant : Nat) (O : raw_ostream) :
    (∀ (ExtraCode : Option String) (r : Nat) (Disp : MachineOperand),
        MI.getOperand OpNo = some (.MO_Register r) →
        MI.getOperand (OpNo + 1) = some Disp → Disp.supported = true →
        (ExtraCode = none ∨ ∃ s, ExtraCode = some s ∧ firstChar s = '\x00') →
        ∃ O1, printSrcMemOperand T MI OpNo O = .ret () O1
          ∧ PrintAsmMemoryOperand T MI OpNo AsmVariant ExtraCode O = .ret false O1)
    ∧ (∀ s : String, firstChar s ≠ '\x00' →
        PrintAsmMemoryOperand T MI OpNo AsmVariant (some s) O = .ret true O)
    ∧ (∀ (ExtraCode : Option String) (v : Nat),
        PrintAsmMemoryOperand T MI OpNo v ExtraCode O
          = PrintAsmMemoryOperand T MI OpNo AsmVariant ExtraCode O
        ∧ PrintAsmOperand T MI OpNo v ExtraCode O
          = PrintAsmOperand T MI OpNo AsmVariant ExtraCode O)
    ∧ (∀ e1 e2 : Option String,
        (e1.all fun s => firstChar s == '\x00') = (e2.all fun s => firstChar s == '\x00') →
        PrintAsmMemoryOperand T MI OpNo AsmVariant e1 O
          = PrintAsmMemoryOperand T MI OpNo AsmVariant e2 O
        ∧ PrintAsmOperand T MI OpNo AsmVariant e1 O
          = PrintAsmOperand T MI OpNo AsmVariant e2 O) := by
  refine ⟨?_, ?_, ?_, ?_⟩
  · intro ExtraCode r Disp hb hd hs he
    obtain ⟨t, ht⟩ := printSrcMemOperand_returns T MI OpNo r Disp hb hd hs
    refine ⟨O ++ t, ht O, ?_⟩
    rcases he with he | ⟨s, he, hc⟩
    · simp [PrintAsmMemoryOperand, he, ht O]
    · simp [PrintAsmMemoryOperand, he, hc, ht O]
  · intro s hs
    simp [PrintAsmMemoryOperand, hs]
  · intro ExtraCode v
    exact ⟨rfl, rfl⟩
  · intro e1 e2 he
    cases e1 with
    | none =>
      cases e2 with
      | none => exact ⟨rfl, rfl⟩
      | some s2 =>
        have h2 : firstChar s2 = '\x00' := by simpa using he.symm
        simp [PrintAsmMemoryOperand, PrintAsmOperand, h2]
    | some s1 =>
      cases e2 with
      | none =>
        have h1 : firstChar s1 = '\x00' := by simpa using he
        simp [PrintAsmMemoryOperand, PrintAsmOperand, h1]
      | some s2 =>
        by_cases h1 : firstChar s1 = '\x00'
        · have h2 : firstChar s2 = '\x00' := by simpa [h1] using he
          simp [PrintAsmMemoryOperand, PrintAsmOperand, h1, h2]
        · have h2 : ¬ firstChar s2 = '\x00' := by simpa [h1] using he
          simp [PrintAsmMemoryOperand, PrintAsmOperand, h1, h2]

/-- Witness of C20: on base `r4` and displacement `foo`, a null `ExtraCode` gives `false` and the
text `foo(r4)`; the `ExtraCode` `c` gives `true` and leaves the stream `mov ` as it was. -/
theorem PrintAsmMemoryOperand_all_or_nothing_witness :
    (mkInstr [.MO_Register 4, .MO_GlobalAddress ⟨"foo"⟩ 0]).getOperand 0
        = some (.MO_Register 4)
    ∧ (mkInstr [.MO_Register 4, .MO_GlobalAddress ⟨"foo"⟩ 0]).getOperand (0 + 1)
        = some (.MO_GlobalAddress ⟨"foo"⟩ 0)
    ∧ (MachineOperand.MO_GlobalAddress ⟨"foo"⟩ 0).supported = true
    ∧ firstChar "c" ≠ '\x00'
    ∧ (∃ O1, printSrcMemOperand sampleTables
          (mkInstr [.MO_Register 4, .MO_GlobalAddress ⟨"foo"⟩ 0]) 0 "mov " = .ret () O1
        ∧ PrintAsmMemoryOperand sampleTables
          (mkInstr [.MO_Register 4, .MO_GlobalAddress ⟨"foo"⟩ 0]) 0 0 none "mov "
            = .ret false O1)
    ∧ PrintAsmMemoryOperand sampleTables
        (mkInstr [.MO_Register 4, .MO_GlobalAddress ⟨"foo"⟩ 0]) 0 0 (some "c") "mov "
        = .ret true "mov " :=
  ⟨rfl, rfl, rfl, by decide,
    (PrintAsmMemoryOperand_all_or_nothing sampleTables
      (mkInstr [.MO_Register 4, .MO_GlobalAddress ⟨"foo"⟩ 0]) 0 0 "mov ").1 none 4
      (.MO_GlobalAddress ⟨"foo"⟩ 0) rfl rfl rfl (Or.inl rfl),
    (PrintAsmMemoryOperand_all_or_nothing sampleTables
      (mkInstr [.MO_Register 4, .MO_GlobalAddress ⟨"foo"⟩ 0]) 0 0 "mov ").2.1 "c"
      (by decide)⟩

/-! ## Modifiers other than `"nohash"` and `"mem"` -/

/-- A character is determined by its code. -/
theorem char_eq_of_toNat_eq {a b : Char} (h : a.toNat = b.toNat) : a = b := by
  rw [← Char.ofNat_toNat a, ← Char.ofNat_toNat b, h]

/-- On C strings (character lists without NUL) `strcmp` gives 0 only for equal strings. -/
theorem strcmpChars_eq_zero (a : List Char) :
    ∀ b : List Char, '\x00' ∉ a → '\x00' ∉ b → strcmpChars a b = 0 → a = b := by
  induction a with
  | nil =>
    intro b _ hb h
    cases b with
    | nil => rfl
    | cons c cs =>
      simp only [strcmpChars] at h
      have hc : c.toNat = ('\x00' : Char).toNat := by
        have : (c.toNat : Int) = 0 := by omega
        simpa using this
      exact absurd (char_eq_of_toNat_eq hc).symm (fun e => hb (List.mem_cons.mpr (Or.inl e)))
  | cons x xs ih =>
    intro b ha hb h
    cases b with
    | nil =>
      simp only [strcmpChars] at h
      have hx : x.toNat = ('\x00' : Char).toNat := by
        have : (x.toNat : Int) = 0 := h
        simpa using this
      exact absurd (char_eq_of_toNat_eq hx).symm (fun e => ha (List.mem_cons.mpr (Or.inl e)))
    | cons c cs =>
      simp only [List.mem_cons, not_or] at ha hb
      by_cases hxc : x = c
      · subst hxc
        have hx0 : ¬ x = '\x00' := fun e => ha.1 e.symm
        simp only [strcmpChars, ne_eq, not_true_eq_false, if_false, hx0] at h
        rw [ih cs ha.2 hb.2 h]
      · simp only [strcmpChars, ne_eq, hxc, not_false_eq_true, if_true] at h
        have : x.toNat = c.toNat := by omega
        exact absurd (char_eq_of_toNat_eq this) hxc

/-- A C string that is not `lit` does not compare equal to it. -/
theorem strcmp_ne_zero (m lit : String) (hm : '\x00' ∉ m.data) (hl : '\x00' ∉ lit.data)
    (hne : m ≠ lit) : strcmp m lit ≠ 0 := by
  intro h
  exact hne (String.ext (strcmpChars_eq_zero m.data lit.data hm hl h))

/-- C19: `printOperand` tells the modifiers apart by the content of the string. For every C
string `m` that is neither `"nohash"` nor `"mem"`, and every operand, `printOperand` with `m`
does what it does with no modifier; and on an immediate `v` the modifier `"mem"` gives the
default `#` and the signed decimal of `v`. -/
theorem printOperand_other_modifier (T : Tables) (MI : MachineInstr) (OpNum : Nat)
    (O : raw_ostream) (m : String) (hm : '\x00' ∉ m.data)
    (h1 : m ≠ "nohash") (h2 : m ≠ "mem") :
    printOperand T MI OpNum O (some m) = printOperand T MI OpNum O none
    ∧ ∀ v, MI.getOperand OpNum = some (.MO_Immediate v) →
        printOperand T MI OpNum O (some "mem") = .ret () (O ++ ("#" ++ signedDecimal v)) := by
  have hn : strcmp m "nohash" ≠ 0 := strcmp_ne_zero m "nohash" hm (by decide) h1
  have hmem : strcmp m "mem" ≠ 0 := strcmp_ne_zero m "mem" hm (by decide) h2
  constructor
  · unfold printOperand
    cases hop : MI.getOperand OpNum with
    | none => rfl
    | some MO =>
      cases MO with
      | MO_Other k => rfl
      | MO_Register r => rfl
      | MO_MachineBasicBlock b => rfl
      | MO_Immediate v => simp [hn]
      | MO_ExternalSymbol n => simp [hmem]
      | MO_GlobalAddress GV Off => simp [hn, hmem]
  · intro v hop
    simp [printOperand, hop, strcmp_mem_nohash, String.ext_iff, String.data_append,
      String.data_push]

/-- Witness of C19: under the modifier `Nohash` the global `foo` prints as `#foo`, as it does with
no modifier. -/
theorem printOperand_other_modifier_witness :
    '\x00' ∉ "Nohash".data ∧ "Nohash" ≠ "nohash" ∧ "Nohash" ≠ "mem"
    ∧ printOperand sampleTables (mkInstr [.MO_GlobalAddress ⟨"foo"⟩ 0]) 0 "" (some "Nohash")
        = printOperand sampleTables (mkInstr [.MO_GlobalAddress ⟨"foo"⟩ 0]) 0 "" none
    ∧ printOperand sampleTables (mkInstr [.MO_GlobalAddress ⟨"foo"⟩ 0]) 0 "" none
        = .ret () "#foo" :=
  ⟨by decide, by decide, by decide,
    (printOperand_other_modifier sampleTables (mkInstr [.MO_GlobalAddress ⟨"foo"⟩ 0]) 0 ""
      "Nohash" (by decide) (by decide) (by decide)).1,
    by decide⟩

/-! ## Negative offsets -/

/-- A decimal digit character is not the minus sign. -/
theorem digitChar_ne_minus (n : Nat) (hn : n < 10) : Nat.digitChar n ≠ '-' := by
  interval_cases n <;> decide

/-- The digits of a number hold no minus sign. -/
theorem toDigitsCore_no_minus (fuel : Nat) :
    ∀ (n : Nat) (ds : List Char), '-' ∉ ds → '-' ∉ Nat.toDigitsCore 10 fuel n ds := by
  induction fuel with
  | zero =>
    intro n ds hds
    simpa [Nat.toDigitsCore] using hds
  | succ f ih =>
    intro n ds hds
    have hcons : '-' ∉ Nat.digitChar (n % 10) :: ds := by
      intro hmem
      rcases List.mem_cons.mp hmem with e | e
      · exact digitChar_ne_minus (n % 10) (Nat.mod_lt n (by decide)) e.symm
      · exact hds e
    simp only [Nat.toDigitsCore]
    split_ifs
    · exact hcons
    · exact ih _ _ hcons

/-- The unsigned decimal of a number holds no minus sign. -/
theorem decimal_no_minus (n : Nat) : '-' ∉ (decimal n).data := by
  have h : (decimal n).data = Nat.toDigitsCore 10 (n + 1) n [] := rfl
  rw [h]
  exact toDigitsCore_no_minus (n + 1) n [] (by simp)

/-- The 64-bit pattern of a negative `int64_t`, read as `uint64_t`. -/
theorem toUInt64_neg {k : Int} (hlo : -(2 : Int) ^ 63 ≤ k) (hneg : k < 0) :
    toUInt64 k = (k + (2 : Int) ^ 64).toNat ∧ toUInt64 k ≠ 0 := by
  unfold toUInt64
  have h : k % (2 : Int) ^ 64 = k + (2 : Int) ^ 64 := by omega
  rw [h]
  omega

/-- C18: the offset of a global address is written as an unsigned 64-bit number. For a
negative `int64_t` value `k`, `printOperand` writes between `(` and `+`, under every modifier,
the decimal of `k + 2^64`, which holds no minus sign; an immediate of the same value `k` is
written as `-` followed by the decimal of `|k|`. -/
theorem printOperand_negative_offset (T : Tables) (MI : MachineInstr) (OpNum : Nat)
    (O : raw_ostream) (k : Int) (hlo : -(2 : Int) ^ 63 ≤ k) (hneg : k < 0) :
    (∀ GV, MI.getOperand OpNum = some (.MO_GlobalAddress GV k) →
      (∀ Modifier : Option String, ∃ pre : String,
        printOperand T MI OpNum O Modifier
          = .ret () (O ++ (pre ++ "(" ++ decimal (k + (2 : Int) ^ 64).toNat ++ "+"
              ++ T.getSymbol GV ++ ")")))
      ∧ printOperand T MI OpNum O none
          = .ret () (O ++ ("#(" ++ decimal (k + (2 : Int) ^ 64).toNat ++ "+"
              ++ T.getSymbol GV ++ ")"))
      ∧ '-' ∉ (decimal (k + (2 : Int) ^ 64).toNat).data)
    ∧ (MI.getOperand OpNum = some (.MO_Immediate k) →
      printOperand T MI OpNum O none = .ret () (O ++ ("#-" ++ decimal k.natAbs))
      ∧ printOperand T MI OpNum O (some "nohash")
          = .ret () (O ++ ("-" ++ decimal k.natAbs))) := by
  obtain ⟨hk, hk0⟩ := toUInt64_neg hlo hneg
  rw [← hk]
  constructor
  · intro GV hop
    refine ⟨?_, ?_, decimal_no_minus _⟩
    · intro Modifier
      cases Modifier with
      | none =>
        refine ⟨"#", ?_⟩
        simp [printOperand, hop, hk0, String.ext_iff, String.data_append,
          String.data_push]
      | some m =>
        by_cases hn : strcmp m "nohash" = 0
        · refine ⟨"", ?_⟩
          simp [printOperand, hop, hk0, hn, String.ext_iff, String.data_append,
            String.data_push]
        · by_cases hmem : strcmp m "mem" = 0
          · refine ⟨"&", ?_⟩
            simp [printOperand, hop, hk0, hn, hmem, String.ext_iff,
              String.data_append, String.data_push]
          · refine ⟨"#", ?_⟩
            simp [printOperand, hop, hk0, hn, hmem, String.ext_iff,
              String.data_append, String.data_push]
    · simp [printOperand, hop, hk0, String.ext_iff, String.data_append,
        String.data_push]
  · intro hop
    constructor
    · simp [printOperand, hop, signedDecimal, hneg, String.ext_iff, String.data_append,
        String.data_push]
    · simp [printOperand, hop, signedDecimal, hneg, strcmp_nohash_nohash, String.ext_iff,
        String.data_append]

/-- Witness of C18: the global `foo` at offset -1 prints as `#(18446744073709551615+foo)`, the
immediate -1 as `#-1`. -/
theorem printOperand_negative_offset_witness :
    -(2 : Int) ^ 63 ≤ -1 ∧ (-1 : Int) < 0
    ∧ (mkInstr [.MO_GlobalAddress ⟨"foo"⟩ (-1)]).getOperand 0
        = some (.MO_GlobalAddress ⟨"foo"⟩ (-1))
    ∧ (mkInstr [.MO_Immediate (-1)]).getOperand 0 = some (.MO_Immediate (-1))
    ∧ printOperand sampleTables (mkInstr [.MO_GlobalAddress ⟨"foo"⟩ (-1)]) 0 "" none
        = .ret () "#(18446744073709551615+foo)"
    ∧ printOperand sampleTables (mkInstr [.MO_Immediate (-1)]) 0 "" none = .ret () "#-1" :=
  ⟨by decide, by decide, rfl, rfl,
    ((printOperand_negative_offset sampleTables (mkInstr [.MO_GlobalAddress ⟨"foo"⟩ (-1)]) 0
      "" (-1) (by decide) (by decide)).1 ⟨"foo"⟩ rfl).2.1,
    ((printOperand_negative_offset sampleTables (mkInstr [.MO_Immediate (-1)]) 0
      "" (-1) (by decide) (by decide)).2 rfl).1⟩

/-! ## The target node codes -/

/-- C17: the tagged custom operations are the 13 enumerators after `FIRST_NUMBER`, in the order
of the specification's list; their codes are `BUILTIN_OP_END + 1`, ..., `BUILTIN_OP_END + 13`,
pairwise distinct, and each is greater than every generic opcode (every number below
`BUILTIN_OP_END`). -/
theorem NvfcISD_opcodes (BUILTIN_OP_END : Nat) :
    TaggedCustomOperation.all.map TaggedCustomOperation.toNodeType = NvfcISD.opcodes
    ∧ (∀ t : TaggedCustomOperation, t ∈ TaggedCustomOperation.all)
    ∧ NvfcISD.opcodes.length = 13
    ∧ (∀ e : NvfcISD.NodeType, e ∈ NvfcISD.opcodes ↔ e ≠ .FIRST_NUMBER)
    ∧ NvfcISD.value BUILTIN_OP_END .FIRST_NUMBER = BUILTIN_OP_END
    ∧ NvfcISD.opcodes.map (NvfcISD.value BUILTIN_OP_END)
        = (List.range 13).map (fun i => BUILTIN_OP_END + (i + 1))
    ∧ (∀ a b : NvfcISD.NodeType,
        NvfcISD.value BUILTIN_OP_END a = NvfcISD.value BUILTIN_OP_END b → a = b)
    ∧ (∀ e ∈ NvfcISD.opcodes, ∀ g : Nat, g < BUILTIN_OP_END →
        g < NvfcISD.value BUILTIN_OP_END e) := by
  refine ⟨rfl, ?_, rfl, ?_, rfl, ?_, ?_, ?_⟩
  · intro t
    cases t <;> decide
  · intro e
    cases e <;> decide
  · simp [NvfcISD.opcodes, NvfcISD.enumerators, NvfcISD.value, List.range, List.range.loop]
  · intro a b h
    cases a <;> cases b <;> first | rfl | (simp only [NvfcISD.value] at h; omega)
  · intro e _ g hg
    cases e <;> simp only [NvfcISD.value] <;> omega

/-- Witness of C17: with 200 generic opcodes the codes run from 201 (`RET_FLAG`) to 213 (`XBIT`),
and the generic opcode 199 is below `CMP`. -/
theorem NvfcISD_opcodes_witness :
    NvfcISD.opcodes.map (NvfcISD.value 200)
      = [201, 202, 203, 204, 205, 206, 207, 208, 209, 210, 211, 212, 213]
    ∧ NvfcISD.NodeType.CMP ∈ NvfcISD.opcodes ∧ 199 < 200
    ∧ 199 < NvfcISD.value 200 .CMP :=
  ⟨(NvfcISD_opcodes 200).2.2.2.2.2.1, by decide, by decide,
    (NvfcISD_opcodes 200).2.2.2.2.2.2.2 .CMP (by decide) 199 (by decide)⟩

/-! ## The flag dependency of lowered comparisons -/

/-- In the stream that `lowerFrom pos` emits, a consumer of a flag stands right after a `CMP`,
and its flag operand is the position of that `CMP`. -/
theorem lowerFrom_flag (ops : List GenericOp) :
    ∀ (pos j : Nat) (x : TargetOp) (c : Nat),
      (lowerFrom pos ops)[j]? = some x → x.flag = some c →
      ∃ i, j = i + 1 ∧ c = pos + i
        ∧ ∃ y, (lowerFrom pos ops)[i]? = some y ∧ y.isCMP = true := by
  induction ops with
  | nil =>
    intro pos j x c hx _
    simp [lowerFrom] at hx
  | cons op rest ih =>
    intro pos j x c hx hc
    cases op with
    | Other o =>
      cases j with
      | zero =>
        simp [lowerFrom] at hx
        subst hx
        simp [TargetOp.flag] at hc
      | succ j1 =>
        simp only [lowerFrom, List.getElem?_cons_succ] at hx
        obtain ⟨i, hj, hci, y, hy, hcmp⟩ := ih (pos + 1) j1 x c hx hc
        exact ⟨i + 1, by omega, by omega, y, by simpa [lowerFrom] using hy, hcmp⟩
    | BR_CC cc l r d =>
      cases j with
      | zero =>
        simp [lowerFrom] at hx
        subst hx
        simp [TargetOp.flag] at hc
      | succ j1 =>
        cases j1 with
        | zero =>
          simp [lowerFrom] at hx
          subst hx
          simp only [TargetOp.flag, Option.some.injEq] at hc
          exact ⟨0, rfl, by omega, .CMP l r, by simp [lowerFrom], rfl⟩
        | succ j2 =>
          simp only [lowerFrom, List.getElem?_cons_succ] at hx
          obtain ⟨i, hj, hci, y, hy, hcmp⟩ := ih (pos + 2) j2 x c hx hc
          exact ⟨i + 2, by omega, by omega, y, by simpa [lowerFrom] using hy, hcmp⟩
    | SETCC l r cc =>
      cases j with
      | zero =>
        simp [lowerFrom] at hx
        subst hx
        simp [TargetOp.flag] at hc
      | succ j1 =>
        cases j1 with
        | zero =>
          simp [lowerFrom] at hx
          subst hx
          simp only [TargetOp.flag, Option.some.injEq] at hc
          exact ⟨0, rfl, by omega, .CMP l r, by simp [lowerFrom], rfl⟩
        | succ j2 =>
          simp only [lowerFrom, List.getElem?_cons_succ] at hx
          obtain ⟨i, hj, hci, y, hy, hcmp⟩ := ih (pos + 2) j2 x c hx hc
          exact ⟨i + 2, by omega, by omega, y, by simpa [lowerFrom] using hy, hcmp⟩
    | SELECT_CC l r tv fv cc =>
      cases j with
      | zero =>
        simp [lowerFrom] at hx
        subst hx
        simp [TargetOp.flag] at hc
      | succ j1 =>
        cases j1 with
        | zero =>
          simp [lowerFrom] at hx
          subst hx
          simp only [TargetOp.flag, Option.some.injEq] at hc
          exact ⟨0, rfl, by omega, .CMP l r, by simp [lowerFrom], rfl⟩
        | succ j2 =>
          simp only [lowerFrom, List.getElem?_cons_succ] at hx
          obtain ⟨i, hj, hci, y, hy, hcmp⟩ := ih (pos + 2) j2 x c hx hc
          exact ⟨i + 2, by omega, by omega, y, by simpa [lowerFrom] using hy, hcmp⟩

/-- C15: in every stream that lowering produces, the flag operand of each consumer (`BR_CC`,
`SELECT_CC`, `SETCC`) is the position of a `CMP` that comes before the consumer, and two
consumers with the same flag operand are one and the same operation of the stream: no two
distinct consumers read the result of one `CMP`. -/
theorem lower_flag_dependency (ops : List GenericOp) :
    (∀ (j : Nat) (x : TargetOp) (c : Nat),
      (lower ops)[j]? = some x → x.flag = some c →
      c < j ∧ ∃ y, (lower ops)[c]? = some y ∧ y.isCMP = true)
    ∧ (∀ (j1 j2 : Nat) (x1 x2 : TargetOp) (c : Nat),
      (lower ops)[j1]? = some x1 → (lower ops)[j2]? = some x2 →
      x1.flag = some c → x2.flag = some c → j1 = j2) := by
  constructor
  · intro j x c hx hc
    obtain ⟨i, hj, hci, y, hy, hcmp⟩ := lowerFrom_flag ops 0 j x c hx hc
    have hic : i = c := by omega
    subst hic
    exact ⟨by omega, y, hy, hcmp⟩
  · intro j1 j2 x1 x2 c h1 h2 hc1 hc2
    obtain ⟨i1, hj1, hci1, _⟩ := lowerFrom_flag ops 0 j1 x1 c h1 hc1
    obtain ⟨i2, hj2, hci2, _⟩ := lowerFrom_flag ops 0 j2 x2 c h2 hc2
    omega

/-- Witness of C15: a `SETCC` and a `BR_CC` are lowered to `CMP, SETCC, CMP, BR_CC`; the branch at
position 3 reads the `CMP` at position 2. -/
theorem lower_flag_dependency_witness :
    lower [.SETCC 1 2 0, .BR_CC 3 4 5 6]
      = [.CMP 1 2, .SETCC 0 0, .CMP 4 5, .BR_CC 6 3 2]
    ∧ (lower [.SETCC 1 2 0, .BR_CC 3 4 5 6])[3]? = some (.BR_CC 6 3 2)
    ∧ (TargetOp.BR_CC 6 3 2).flag = some 2
    ∧ 2 < 3
    ∧ ∃ y, (lower [.SETCC 1 2 0, .BR_CC 3 4 5 6])[2]? = some y ∧ y.isCMP = true :=
  ⟨rfl, rfl, rfl,
    (lower_flag_dependency [.SETCC 1 2 0, .BR_CC 3 4 5 6]).1 3 (.BR_CC 6 3 2) 2 rfl rfl⟩

/-! ## The placement of call arguments -/

/-- C16: a call with three arguments of the fixed-arity part, on an ISA with the two argument
registers `R1`, `R2`, has its first argument placed in `R1`, its second in `R2` and its third
in the first stack slot, in declaration order. -/
theorem LowerCCCCallTo_three_args (R1 R2 : Nat) (a1 a2 a3 : OutputArg)
    (h1 : a1.IsFixed = true) (h2 : a2.IsFixed = true) (h3 : a3.IsFixed = true) :
    LowerCCCCallTo [R1, R2] [a1, a2, a3]
      = [(a1, .Reg R1), (a2, .Reg R2), (a3, .Stack 0)] := by
  simp [LowerCCCCallTo, assignArgs, h1, h2, h3]

/-- Witness of C16: with argument registers 15 and 14 the arguments 7, 8, 9 go to register 15,
register 14 and stack slot 0. -/
theorem LowerCCCCallTo_three_args_witness :
    (OutputArg.mk 7 true).IsFixed = true ∧ (OutputArg.mk 8 true).IsFixed = true
    ∧ (OutputArg.mk 9 true).IsFixed = true
    ∧ LowerCCCCallTo [15, 14] [⟨7, true⟩, ⟨8, true⟩, ⟨9, true⟩]
      = [(⟨7, true⟩, .Reg 15), (⟨8, true⟩, .Reg 14), (⟨9, true⟩, .Stack 0)] :=
  ⟨rfl, rfl, rfl, LowerCCCCallTo_three_args 15 14 ⟨7, true⟩ ⟨8, true⟩ ⟨9, true⟩ rfl rfl rfl⟩

end Nvfc
